import Mathlib

/-
Shallow embedding of pkg/cognito/aws.go from piotrjanik/kcp-users-controller.

The AWS Cognito SDK calls are external: each operation is parametrised by the
response the single SDK call (or, for UpdateUser, each of its SDK calls) would
return, and the operation additionally reports the list of requests it issued,
so that "no backend call is made" is expressible.  An SDK error is modelled as
its message/code string; the Go code never inspects an error beyond wrapping
it with fmt.Errorf, so an opaque string is faithful.
-/

namespace KcpUsers

/-- userpool.User: username, email, enabled (the record exchanged with the port). -/
structure User where
  username : String
  email : String
  enabled : Bool
deriving DecidableEq, Repr

/-- An SDK error, identified by its message or exception code string. -/
abbrev SdkErr := String

/-- types.AttributeType: a Cognito user attribute with optional name and value
(pointers in Go, hence Option). -/
structure AttributeType where
  name : Option String
  value : Option String
deriving DecidableEq, Repr

/-- types.MessageActionType: only Suppress is used by the code. -/
inductive MessageActionType where
  | suppress
deriving DecidableEq, Repr

/-- cognitoidentityprovider.AdminCreateUserInput as built by CreateUser. -/
structure AdminCreateUserInput where
  userPoolId : String
  username : String
  userAttributes : List AttributeType
  messageAction : MessageActionType
  temporaryPassword : Option String
deriving DecidableEq, Repr

/-- The AdminCreateUserInput that AWSClient.CreateUser builds (aws.go lines 63 to 84):
email and email_verified attributes, Suppress, and a fixed temporary password
exactly when the desired user is disabled. -/
def createUserInput (userPoolID : String) (user : User) : AdminCreateUserInput :=
  { userPoolId := userPoolID
    username := user.username
    userAttributes :=
      [⟨some "email", some user.email⟩, ⟨some "email_verified", some "true"⟩]
    messageAction := MessageActionType.suppress
    temporaryPassword := if user.enabled then none else some "TempPass123!" }

/-- AWSClient.CreateUser (aws.go lines 55 to 92).  `user?` models the *userpool.User
pointer (none = nil).  `resp` is the outcome of the AdminCreateUser SDK call.
Returns the Go error (none = nil) and the list of requests issued. -/
def CreateUser (userPoolID : String) (user? : Option User) (resp : Option SdkErr) :
    Option String × List AdminCreateUserInput :=
  match user? with
  | none => (some "user cannot be nil", [])
  | some user =>
    if user.username = "" then (some "username cannot be empty", [])
    else
      let input := createUserInput userPoolID user
      match resp with
      | some e => (some ("failed to create user " ++ user.username ++ ": " ++ e), [input])
      | none => (none, [input])

/-- AWSClient.DeleteUser (aws.go lines 179 to 195).  `resp` is the outcome of the
AdminDeleteUser SDK call; every SDK error, NotFound included, is wrapped and
returned. -/
def DeleteUser (username : String) (resp : Option SdkErr) : Option String :=
  if username = "" then some "username cannot be empty"
  else
    match resp with
    | some e => some ("failed to delete user " ++ username ++ ": " ++ e)
    | none => none

/-- The email-extraction loop shared by GetUser and ListUsers (aws.go lines 116
to 121 and 224 to 229): scan the attributes, take the value of the first
attribute whose name is non-nil and equal to "email" and whose value is
non-nil; default is the empty string. -/
def extractEmail : List AttributeType → String
  | [] => ""
  | attr :: rest =>
    match attr.name, attr.value with
    | some n, some v => if n = "email" then v else extractEmail rest
    | _, _ => extractEmail rest

/-- The fields of cognitoidentityprovider.AdminGetUserOutput read by GetUser. -/
structure AdminGetUserOutput where
  enabled : Bool
  userAttributes : List AttributeType
deriving DecidableEq, Repr

/-- AWSClient.GetUser (aws.go lines 95 to 124).  `resp` is the outcome of the
AdminGetUser SDK call.  Every SDK error, NotFound included, is wrapped and
returned as an error; there is no error-free "not found" result. -/
def GetUser (username : String) (resp : Except SdkErr AdminGetUserOutput) :
    Except String User :=
  if username = "" then Except.error "username cannot be empty"
  else
    match resp with
    | Except.error e => Except.error ("failed to get user " ++ username ++ ": " ++ e)
    | Except.ok output =>
      Except.ok
        { username := username
          email := extractEmail output.userAttributes
          enabled := output.enabled }

/-- The admin SDK calls issued by UpdateUser, with their arguments. -/
inductive CognitoCall where
  | updateAttrs (username : String) (attrs : List AttributeType)
  | enableUser (username : String)
  | disableUser (username : String)
deriving DecidableEq, Repr

/-- AWSClient.UpdateUser (aws.go lines 127 to 176).  `attrsResp`, `enableResp` and
`disableResp` are the outcomes the backend would return for the
AdminUpdateUserAttributes, AdminEnableUser and AdminDisableUser calls.
Returns the Go error (none = nil) together with the calls actually issued, in
order: the attribute update always comes first, and on its failure no
enable/disable call is issued. -/
def UpdateUser (user? : Option User)
    (attrsResp enableResp disableResp : Option SdkErr) :
    Option String × List CognitoCall :=
  match user? with
  | none => (some "user cannot be nil", [])
  | some user =>
    if user.username = "" then (some "username cannot be empty", [])
    else
      let ua := CognitoCall.updateAttrs user.username [⟨some "email", some user.email⟩]
      match attrsResp with
      | some e =>
        (some ("failed to update user attributes for " ++ user.username ++ ": " ++ e), [ua])
      | none =>
        if user.enabled then
          match enableResp with
          | some e =>
            (some ("failed to enable user " ++ user.username ++ ": " ++ e),
             [ua, CognitoCall.enableUser user.username])
          | none => (none, [ua, CognitoCall.enableUser user.username])
        else
          match disableResp with
          | some e =>
            (some ("failed to disable user " ++ user.username ++ ": " ++ e),
             [ua, CognitoCall.disableUser user.username])
          | none => (none, [ua, CognitoCall.disableUser user.username])

/-- A backend-side user record: email attribute and enabled flag. -/
structure PoolRecord where
  email : String
  enabled : Bool
deriving DecidableEq, Repr

/-- The user pool as a map from username to record. -/
abbrev Pool := String → Option PoolRecord

/-- The email value an attribute-update request carries: the value of the first
attribute named "email" that has a value, keeping `old` when there is none. -/
def emailUpdate (attrs : List AttributeType) (old : String) : String :=
  match attrs.find? (fun a => a.name == some "email" && a.value.isSome) with
  | some a => a.value.getD old
  | none => old

/-- Modelled from the spec: the effect of one admin call on the remote user pool
(the concrete provider semantics are outside src/; the spec says Update
"updates attributes and enabled/disabled state").  An attribute update rewrites
the email of the named record; enable/disable set its enabled flag; a call on
an absent username leaves the pool unchanged. -/
def applyCall (pool : Pool) : CognitoCall → Pool
  | CognitoCall.updateAttrs uname attrs => fun n =>
      if n = uname then (pool n).map (fun r => { r with email := emailUpdate attrs r.email })
      else pool n
  | CognitoCall.enableUser uname => fun n =>
      if n = uname then (pool n).map (fun r => { r with enabled := true }) else pool n
  | CognitoCall.disableUser uname => fun n =>
      if n = uname then (pool n).map (fun r => { r with enabled := false }) else pool n

/-- Effect of a sequence of admin calls on the pool, in order. -/
def applyCalls (pool : Pool) (calls : List CognitoCall) : Pool :=
  calls.foldl applyCall pool

/-- types.UserType: the fields of a listed Cognito user read by ListUsers
(Username is a pointer in Go, hence Option). -/
structure CognitoUser where
  username : Option String
  enabled : Bool
  attributes : List AttributeType
deriving DecidableEq, Repr

/-- One page of the cognitoidentityprovider ListUsers response. -/
structure ListUsersOutput where
  users : List CognitoUser
  paginationToken : Option String
deriving DecidableEq, Repr

/-- The per-record conversion in the ListUsers loop body (aws.go lines 213 to
232): a record with nil Username is skipped, otherwise its username is
dereferenced and the email extracted from its attributes. -/
def convertUser (cu : CognitoUser) : Option User :=
  cu.username.map fun n =>
    { username := n, email := extractEmail cu.attributes, enabled := cu.enabled }

/-- Conversion of one page of records, skipping nil usernames. -/
def convertUsers (records : List CognitoUser) : List User :=
  records.filterMap convertUser

/-- The backend of the pagination walk: a response for each pagination token
(none is the initial, absent token of the first request). -/
abbrev Backend := Option String → Except SdkErr ListUsersOutput

/-- AWSClient.ListUsers (aws.go lines 198 to 241), fuel-indexed because the Go
loop is unbounded: request the page for the current token, accumulate the
converted records, stop with the accumulated list when the returned token is
nil, otherwise continue with the returned token.  `none` means the fuel ran
out before the walk terminated. -/
def listUsersFuel (backend : Backend) :
    Nat → Option String → List User → Option (Except String (List User))
  | 0, _, _ => none
  | fuel + 1, tok, acc =>
    match backend tok with
    | Except.error e => some (Except.error ("failed to list users: " ++ e))
    | Except.ok output =>
      match output.paginationToken with
      | none => some (Except.ok (acc ++ convertUsers output.users))
      | some t => listUsersFuel backend fuel (some t) (acc ++ convertUsers output.users)

/-- AWSClient.ListUsers: the walk starts with a nil pagination token and an
empty accumulator. -/
def ListUsers (backend : Backend) (fuel : Nat) : Option (Except String (List User)) :=
  listUsersFuel backend fuel none []

/-- The successful pages the walk serves from token `tok` within `fuel`
requests, following the token chain exactly as the loop does. -/
def servedOutputs (backend : Backend) :
    Nat → Option String → List ListUsersOutput
  | 0, _ => []
  | fuel + 1, tok =>
    match backend tok with
    | Except.error _ => []
    | Except.ok output =>
      output ::
        (match output.paginationToken with
         | none => []
         | some t => servedOutputs backend fuel (some t))

/-- The users of a list of pages, converted and concatenated in page order. -/
def pageUsers (outs : List ListUsersOutput) : List User :=
  (outs.map (fun o => convertUsers o.users)).flatten

/-- The token chain from `tok` reaches a page whose returned token is absent
after exactly `p` successful page requests. -/
inductive Halts (backend : Backend) : Option String → Nat → Prop where
  | done {tok : Option String} {output : ListUsersOutput} :
      backend tok = Except.ok output → output.paginationToken = none →
      Halts backend tok 1
  | step {tok : Option String} {output : ListUsersOutput} {t : String} {p : Nat} :
      backend tok = Except.ok output → output.paginationToken = some t →
      Halts backend (some t) p → Halts backend tok (p + 1)

/-- The email value the spec-style reading assigns to a record: the value of the
first attribute that is named "email" and carries a value, defaulting to the
empty string.  Stated separately from `extractEmail` so the two readings can be
compared. -/
def firstEmailValue (attrs : List AttributeType) : String :=
  match attrs.find? (fun a => a.name == some "email" && a.value.isSome) with
  | some a => a.value.getD ""
  | none => ""

/-- A converted observed user used in concrete runs. -/
def aliceUser : User := { username := "alice", email := "a@x.com", enabled := true }

/-- A converted observed user used in concrete runs. -/
def bobUser : User := { username := "bob", email := "b@x.com", enabled := false }

/-- A backend record for alice. -/
def aliceRecord : CognitoUser :=
  { username := some "alice", enabled := true
    attributes := [⟨some "email", some "a@x.com"⟩] }

/-- A backend record for bob. -/
def bobRecord : CognitoUser :=
  { username := some "bob", enabled := false
    attributes := [⟨some "email", some "b@x.com"⟩] }

/-- A two-page backend whose pages overlap: alice appears on both pages. -/
def overlapBackend : Backend := fun tok =>
  match tok with
  | none => Except.ok { users := [aliceRecord], paginationToken := some "page2" }
  | some _ => Except.ok { users := [aliceRecord], paginationToken := none }

/-- A two-page backend with disjoint pages: alice on page one, bob on page two. -/
def disjointBackend : Backend := fun tok =>
  match tok with
  | none => Except.ok { users := [aliceRecord], paginationToken := some "page2" }
  | some _ => Except.ok { users := [bobRecord], paginationToken := none }

/-- A page containing a record with a nil username next to alice. -/
def skipRecords : List CognitoUser :=
  [{ username := none, enabled := true, attributes := [⟨some "email", some "ghost@x.com"⟩] },
   aliceRecord]

/-- A one-page backend serving `skipRecords`. -/
def skipBackend : Backend := fun _ =>
  Except.ok { users := skipRecords, paginationToken := none }

/-- An attribute list whose first "email" attribute has a nil value while a
later "email" attribute carries a value. -/
def emailNilAttrs : List AttributeType :=
  [⟨some "email", none⟩, ⟨some "email", some "a@x.com"⟩]

/-- A pool holding a single stale record for alice. -/
def samplePool : Pool := fun n =>
  if n = "alice" then some { email := "old@x.com", enabled := false } else none

end KcpUsers

namespace KcpUsers

/-- Unfolding lemma: a successful fuel-bounded walk returns the accumulator
followed by the converted users of the pages it served, in page order. -/
theorem listUsersFuel_ok (backend : Backend) :
    ∀ (fuel : Nat) (tok : Option String) (acc us : List User),
      listUsersFuel backend fuel tok acc = some (Except.ok us) →
      us = acc ++ pageUsers (servedOutputs backend fuel tok) := by
  intro fuel
  induction fuel with
  | zero => intro tok acc us h; simp [listUsersFuel] at h
  | succ n ih =>
    intro tok acc us h
    rw [listUsersFuel] at h
    split at h
    · simp at h
    · rename_i output heq
      split at h
      · rename_i ht
        simp only [Option.some.injEq, Except.ok.injEq] at h
        simp [servedOutputs, heq, ht, pageUsers, h.symm]
      · rename_i t ht
        have h2 := ih _ _ _ h
        simp [servedOutputs, heq, ht, pageUsers] at h2 ⊢
        simp [h2]

/-- A walk whose token chain halts after `p` pages succeeds with any fuel of at
least `p`, returning the accumulator followed by those `p` pages' users. -/
theorem halts_listUsersFuel (backend : Backend) {tok : Option String} {p : Nat}
    (h : Halts backend tok p) :
    ∀ (fuel : Nat), p ≤ fuel → ∀ (acc : List User),
      listUsersFuel backend fuel tok acc =
        some (Except.ok (acc ++ pageUsers (servedOutputs backend p tok))) := by
  induction h with
  | done hb ht =>
    intro fuel hf acc
    cases fuel with
    | zero => omega
    | succ m =>
      rw [listUsersFuel]
      simp [hb, ht, servedOutputs, pageUsers]
  | step hb ht _ ih =>
    intro fuel hf acc
    cases fuel with
    | zero => omega
    | succ m =>
      rw [listUsersFuel]
      rename_i output t p2 hh
      simp only [hb, ht]
      rw [ih m (by omega)]
      simp [servedOutputs, hb, ht, pageUsers]

/-- The email the extraction loop computes is the value of the first attribute
named "email" that carries a value, defaulting to the empty string. -/
theorem extractEmail_eq_firstEmailValue (attrs : List AttributeType) :
    extractEmail attrs = firstEmailValue attrs := by
  induction attrs with
  | nil => rfl
  | cons a rest ih =>
    rcases a with ⟨nm, vl⟩
    rcases nm with _ | n
    · simpa [extractEmail, firstEmailValue, List.find?] using ih
    · rcases vl with _ | v
      · simpa [extractEmail, firstEmailValue, List.find?] using ih
      · by_cases hn : n = "email"
        · subst hn
          simp [extractEmail, firstEmailValue, List.find?]
        · have hne : (n == "email") = false := by simp [hn]
          simpa [extractEmail, firstEmailValue, List.find?, hn, hne] using ih

/-- The extraction loop ignores attributes whose name or value is nil. -/
theorem extractEmail_filter_valid (attrs : List AttributeType) :
    extractEmail attrs =
      extractEmail (attrs.filter (fun a => a.name.isSome && a.value.isSome)) := by
  induction attrs with
  | nil => rfl
  | cons a rest ih =>
    rcases a with ⟨nm, vl⟩
    rcases nm with _ | n
    · simpa [extractEmail, List.filter] using ih
    · rcases vl with _ | v
      · simpa [extractEmail, List.filter] using ih
      · by_cases hn : n = "email"
        · subst hn
          simp [extractEmail, List.filter]
        · simpa [extractEmail, List.filter, hn] using ih

/-- Records with a nil username contribute nothing to the conversion. -/
theorem convertUsers_filter_someName (records : List CognitoUser) :
    convertUsers records =
      convertUsers (records.filter (fun r => r.username.isSome)) := by
  induction records with
  | nil => rfl
  | cons r rest ih =>
    rcases r with ⟨un, en, attrs⟩
    rcases un with _ | n
    · simpa [convertUsers, convertUser, List.filter] using ih
    · simp only [convertUsers] at ih
      simp [convertUsers, List.filter, List.filterMap_cons, convertUser, ih]

/-- Every converted user comes from a record whose username field holds exactly
that username. -/
theorem convertUsers_username_mem (records : List CognitoUser) (u : User)
    (hu : u ∈ convertUsers records) :
    ∃ r ∈ records, r.username = some u.username := by
  rcases List.mem_filterMap.mp hu with ⟨r, hr, hconv⟩
  refine ⟨r, hr, ?_⟩
  rcases r with ⟨un, en, attrs⟩
  rcases un with _ | n
  · simp [convertUser] at hconv
  · simp only [convertUser, Option.map_some', Option.some.injEq] at hconv
    subst hconv
    rfl

/-- C1 counterexample: when the backend deletion call reports NotFound
(UserNotFoundException), DeleteUser does not return nil: it surfaces a wrapped
error, so the delete of an absent username is not treated as success. -/
theorem C1_counterexample :
    DeleteUser "bob" (some "UserNotFoundException") =
        some "failed to delete user bob: UserNotFoundException" ∧
      DeleteUser "bob" (some "UserNotFoundException") ≠ none :=
  ⟨rfl, by decide⟩

/-- C1 (amended): DeleteUser wraps and surfaces every failed backend deletion
call, NotFound included, and returns nil exactly when the backend call
succeeds; no error is reclassified as success inside DeleteUser. -/
theorem C1_deleteUser_surfaces_every_error (username : String) (e : SdkErr)
    (h : username ≠ "") :
    DeleteUser username (some e) =
        some ("failed to delete user " ++ username ++ ": " ++ e) ∧
      DeleteUser username none = none := by
  simp [DeleteUser, h]

/-- C1 witness: the amended statement at username bob and a NotFound response. -/
theorem C1_witness :
    DeleteUser "bob" (some "UserNotFoundException") =
        some ("failed to delete user " ++ "bob" ++ ": " ++ "UserNotFoundException") ∧
      DeleteUser "bob" none = none :=
  C1_deleteUser_surfaces_every_error "bob" "UserNotFoundException" (by decide)

/-- C3: CreateUser issues exactly one AdminCreateUser request; its temporary
password is the fixed placeholder "TempPass123!" when the desired user is
disabled and is absent when the desired user is enabled. -/
theorem C3_createUser_temp_password (userPoolID : String) (u : User)
    (resp : Option SdkErr) (h : u.username ≠ "") :
    (CreateUser userPoolID (some u) resp).snd = [createUserInput userPoolID u] ∧
      (u.enabled = false →
        (createUserInput userPoolID u).temporaryPassword = some "TempPass123!") ∧
      (u.enabled = true →
        (createUserInput userPoolID u).temporaryPassword = none) := by
  refine ⟨?_, ?_, ?_⟩
  · cases resp <;> simp [CreateUser, h]
  · intro he; simp [createUserInput, he]
  · intro he; simp [createUserInput, he]

/-- C3 witness: the statement at a concrete disabled user. -/
theorem C3_witness :
    (CreateUser "pool-1" (some ⟨"carol", "c@x.com", false⟩) none).snd =
        [createUserInput "pool-1" ⟨"carol", "c@x.com", false⟩] ∧
      ((⟨"carol", "c@x.com", false⟩ : User).enabled = false →
        (createUserInput "pool-1" ⟨"carol", "c@x.com", false⟩).temporaryPassword =
          some "TempPass123!") ∧
      ((⟨"carol", "c@x.com", false⟩ : User).enabled = true →
        (createUserInput "pool-1" ⟨"carol", "c@x.com", false⟩).temporaryPassword = none) :=
  C3_createUser_temp_password "pool-1" ⟨"carol", "c@x.com", false⟩ none (by decide)

/-- C4 counterexample: when the backend lookup reports NotFound
(UserNotFoundException), GetUser does not produce an error-free absent result:
it surfaces a wrapped error. -/
theorem C4_counterexample :
    (GetUser "bob" (Except.error "UserNotFoundException")).toOption = none ∧
      GetUser "bob" (Except.error "UserNotFoundException") =
        Except.error "failed to get user bob: UserNotFoundException" :=
  ⟨rfl, rfl⟩

/-- C4 (amended): GetUser wraps and surfaces every failed backend lookup,
NotFound included, as an error; it does not distinguish an absent record from a
transient failure and has no error-free not-found result. -/
theorem C4_getUser_surfaces_every_error (username : String) (e : SdkErr)
    (h : username ≠ "") :
    GetUser username (Except.error e) =
      Except.error ("failed to get user " ++ username ++ ": " ++ e) := by
  simp [GetUser, h]

/-- C4 witness: the amended statement at username bob and a NotFound response. -/
theorem C4_witness :
    GetUser "bob" (Except.error "UserNotFoundException") =
      Except.error ("failed to get user " ++ "bob" ++ ": " ++ "UserNotFoundException") :=
  C4_getUser_surfaces_every_error "bob" "UserNotFoundException" (by decide)

/-- C5 counterexample: when the backend create call reports AlreadyExists
(UsernameExistsException), CreateUser does not return nil: it surfaces a
wrapped error, so Create is not collapsed to idempotent semantics. -/
theorem C5_counterexample :
    (CreateUser "pool-1" (some aliceUser) (some "UsernameExistsException")).fst =
        some "failed to create user alice: UsernameExistsException" ∧
      (CreateUser "pool-1" (some aliceUser) (some "UsernameExistsException")).fst ≠ none :=
  ⟨rfl, by decide⟩

/-- C5 (amended): CreateUser wraps and surfaces every failed backend create
call, AlreadyExists included; existence checking before Create is left to the
caller. -/
theorem C5_createUser_surfaces_already_exists (userPoolID : String) (u : User)
    (e : SdkErr) (h : u.username ≠ "") :
    (CreateUser userPoolID (some u) (some e)).fst =
      some ("failed to create user " ++ u.username ++ ": " ++ e) := by
  simp [CreateUser, h]

/-- C5 witness: the amended statement at alice and an AlreadyExists response. -/
theorem C5_witness :
    (CreateUser "pool-1" (some aliceUser) (some "UsernameExistsException")).fst =
      some ("failed to create user " ++ aliceUser.username ++ ": " ++
        "UsernameExistsException") :=
  C5_createUser_surfaces_already_exists "pool-1" aliceUser "UsernameExistsException"
    (by decide)

/-- C8: CreateUser fails on a nil desired record and on an empty username with a
validation error, and in both cases issues no backend request. -/
theorem C8_createUser_validates (userPoolID email : String) (en : Bool)
    (resp : Option SdkErr) :
    CreateUser userPoolID none resp = (some "user cannot be nil", []) ∧
      CreateUser userPoolID (some ⟨"", email, en⟩) resp =
        (some "username cannot be empty", []) := by
  constructor
  · rfl
  · cases resp <;> simp [CreateUser]

/-- C6: the walk starts from the absent token and follows each returned token,
and for every backend whose token chain ends after p successful pages it
terminates, for any fuel bound of at least p, with the users of exactly those p
pages — no maximum page count is assumed. -/
theorem C6_pagination_terminates (backend : Backend) (p fuel : Nat)
    (h : Halts backend none p) (hf : p ≤ fuel) :
    ListUsers backend fuel =
      some (Except.ok (pageUsers (servedOutputs backend p none))) := by
  simpa [ListUsers] using halts_listUsersFuel backend h fuel hf []

/-- C6 witness: a concrete two-page backend, with fuel strictly larger than the
page count. -/
theorem C6_witness :
    ListUsers disjointBackend 3 =
      some (Except.ok (pageUsers (servedOutputs disjointBackend 2 none))) :=
  C6_pagination_terminates disjointBackend 2 3
    (Halts.step rfl rfl (Halts.done rfl rfl)) (by decide)

/-- C2 counterexample: a backend serving the same record on each of its two
pages (P = 2) makes ListUsers return alice twice, so the result is not a
duplicate-free union of the pages. -/
theorem C2_counterexample :
    ListUsers overlapBackend 2 = some (Except.ok [aliceUser, aliceUser]) ∧
      ¬ (([aliceUser, aliceUser].map User.username).Nodup) :=
  ⟨rfl, by decide⟩

/-- C2 (amended): a successful walk returns, as membership, exactly the union of
its served pages; the returned usernames are duplicate-free when the pages are
pairwise disjoint and individually duplicate-free, but overlapping pages are
kept verbatim — the loop performs no deduplication. -/
theorem C2_pagination_union (backend : Backend) (fuel : Nat) (us : List User)
    (h : ListUsers backend fuel = some (Except.ok us))
    (hpages : ∀ o ∈ servedOutputs backend fuel none,
      ((convertUsers o.users).map User.username).Nodup)
    (hdisj : (servedOutputs backend fuel none).Pairwise
      (fun o1 o2 => ∀ n, n ∈ (convertUsers o1.users).map User.username →
        n ∉ (convertUsers o2.users).map User.username)) :
    (∀ u, u ∈ us ↔ ∃ o ∈ servedOutputs backend fuel none, u ∈ convertUsers o.users) ∧
      (us.map User.username).Nodup := by
  have hus := listUsersFuel_ok backend fuel none [] us h
  rw [List.nil_append] at hus
  subst hus
  constructor
  · intro u
    simp [pageUsers, List.mem_flatten, List.mem_map]
  · rw [pageUsers, List.map_flatten, List.map_map, List.nodup_flatten]
    constructor
    · intro l hl
      rcases List.mem_map.mp hl with ⟨o, ho, rfl⟩
      exact hpages o ho
    · rw [List.pairwise_map]
      refine hdisj.imp ?_
      intro o1 o2 h12
      intro n hn
      exact h12 n hn

/-- C2 witness: the amended statement at a concrete two-page backend with
disjoint pages. -/
theorem C2_witness :
    (∀ u, u ∈ [aliceUser, bobUser] ↔
      ∃ o ∈ servedOutputs disjointBackend 2 none, u ∈ convertUsers o.users) ∧
      (([aliceUser, bobUser].map User.username).Nodup) :=
  C2_pagination_union disjointBackend 2 [aliceUser, bobUser] rfl (by decide) (by decide)

/-- C9 counterexample: on a record whose first "email" attribute carries a nil
value, GetUser returns the value of a later "email" attribute instead of the
empty string the claim prescribes for a nil-valued first "email" attribute. -/
theorem C9_counterexample :
    emailNilAttrs.find? (fun a => a.name == some "email") =
        some ⟨some "email", none⟩ ∧
      GetUser "alice" (Except.ok ⟨true, emailNilAttrs⟩) =
        Except.ok ⟨"alice", "a@x.com", true⟩ ∧
      ("a@x.com" : String) ≠ "" :=
  ⟨rfl, rfl, by decide⟩

/-- C9 (amended): in GetUser and in the ListUsers record conversion alike, the
email of a returned user is the value of the first attribute named "email"
whose value is non-nil, and the empty string when no such attribute exists. -/
theorem C9_email_first_valued_attribute (username : String) (en : Bool)
    (attrs : List AttributeType) (cu : CognitoUser) (n : String)
    (h : username ≠ "") (hn : cu.username = some n) :
    GetUser username (Except.ok ⟨en, attrs⟩) =
        Except.ok ⟨username, firstEmailValue attrs, en⟩ ∧
      convertUser cu = some ⟨n, firstEmailValue cu.attributes, cu.enabled⟩ := by
  constructor
  · simp [GetUser, h, extractEmail_eq_firstEmailValue]
  · simp [convertUser, hn, extractEmail_eq_firstEmailValue]

/-- C9 witness: the amended statement at the nil-valued first "email" attribute
list and at the alice record. -/
theorem C9_witness :
    GetUser "alice" (Except.ok ⟨true, emailNilAttrs⟩) =
        Except.ok ⟨"alice", firstEmailValue emailNilAttrs, true⟩ ∧
      convertUser aliceRecord =
        some ⟨"alice", firstEmailValue aliceRecord.attributes, aliceRecord.enabled⟩ :=
  C9_email_first_valued_attribute "alice" true emailNilAttrs aliceRecord "alice"
    (by decide) rfl

/-- C10: the conversion underlying ListUsers skips every record with a nil
username, ignores attributes with a nil name or nil value, and each user of a
successful walk carries exactly the non-nil username of a backend record of
some served page. -/
theorem C10_no_nil_dereference (records : List CognitoUser) (u : User)
    (attrs : List AttributeType) (backend : Backend) (fuel : Nat) (us : List User)
    (v : User) (hu : u ∈ convertUsers records)
    (hl : ListUsers backend fuel = some (Except.ok us)) (hv : v ∈ us) :
    convertUsers records = convertUsers (records.filter (fun r => r.username.isSome)) ∧
      (∃ r ∈ records, r.username = some u.username) ∧
      extractEmail attrs =
        extractEmail (attrs.filter (fun a => a.name.isSome && a.value.isSome)) ∧
      ∃ o ∈ servedOutputs backend fuel none, ∃ r ∈ o.users,
        r.username = some v.username := by
  refine ⟨convertUsers_filter_someName records, convertUsers_username_mem records u hu,
    extractEmail_filter_valid attrs, ?_⟩
  have hus := listUsersFuel_ok backend fuel none [] us hl
  rw [List.nil_append] at hus
  subst hus
  simp only [pageUsers, List.mem_flatten, List.mem_map] at hv
  obtain ⟨l, ⟨o, ho, rfl⟩, hvl⟩ := hv
  exact ⟨o, ho, convertUsers_username_mem o.users v hvl⟩

/-- C10 witness: a page holding a nil-username record next to alice. -/
theorem C10_witness :
    convertUsers skipRecords =
        convertUsers (skipRecords.filter (fun r => r.username.isSome)) ∧
      (∃ r ∈ skipRecords, r.username = some aliceUser.username) ∧
      extractEmail emailNilAttrs =
        extractEmail (emailNilAttrs.filter (fun a => a.name.isSome && a.value.isSome)) ∧
      ∃ o ∈ servedOutputs skipBackend 1 none, ∃ r ∈ o.users,
        r.username = some aliceUser.username :=
  C10_no_nil_dereference skipRecords aliceUser emailNilAttrs skipBackend 1
    [aliceUser] aliceUser (by decide) rfl (by decide)

/-- C7: UpdateUser issues the attribute update first; when the attribute update
fails it returns an error and attempts no enable/disable call; when UpdateUser
succeeds, the calls issued are the email attribute update followed by the
enable or disable matching the desired flag, and applying them to any pool
that holds the username leaves its record with exactly the desired email and
enabled flag — one logical operation from the caller's view. -/
theorem C7_updateUser_one_logical_operation (u : User)
    (attrsResp enableResp disableResp : Option SdkErr) (pool : Pool) (r : PoolRecord)
    (h : u.username ≠ "") (hp : pool u.username = some r) :
    ((UpdateUser (some u) attrsResp enableResp disableResp).snd.head? =
        some (CognitoCall.updateAttrs u.username [⟨some "email", some u.email⟩])) ∧
      (attrsResp.isSome = true →
        (UpdateUser (some u) attrsResp enableResp disableResp).fst.isSome = true ∧
          (UpdateUser (some u) attrsResp enableResp disableResp).snd =
            [CognitoCall.updateAttrs u.username [⟨some "email", some u.email⟩]]) ∧
      ((UpdateUser (some u) attrsResp enableResp disableResp).fst = none →
        (UpdateUser (some u) attrsResp enableResp disableResp).snd =
          [CognitoCall.updateAttrs u.username [⟨some "email", some u.email⟩],
            if u.enabled then CognitoCall.enableUser u.username
            else CognitoCall.disableUser u.username] ∧
          applyCalls pool (UpdateUser (some u) attrsResp enableResp disableResp).snd
            u.username = some ⟨u.email, u.enabled⟩) := by
  rcases attrsResp with _ | e
  · cases hen : u.enabled
    · rcases disableResp with _ | e2
      · refine ⟨by simp [UpdateUser, h, hen], by simp [UpdateUser, h, hen], ?_⟩
        intro _
        refine ⟨by simp [UpdateUser, h, hen], ?_⟩
        simp [UpdateUser, h, hen, applyCalls, applyCall, emailUpdate, List.find?, hp]
      · refine ⟨by simp [UpdateUser, h, hen], by simp [UpdateUser, h, hen], ?_⟩
        intro hc
        simp [UpdateUser, h, hen] at hc
    · rcases enableResp with _ | e2
      · refine ⟨by simp [UpdateUser, h, hen], by simp [UpdateUser, h, hen], ?_⟩
        intro _
        refine ⟨by simp [UpdateUser, h, hen], ?_⟩
        simp [UpdateUser, h, hen, applyCalls, applyCall, emailUpdate, List.find?, hp]
      · refine ⟨by simp [UpdateUser, h, hen], by simp [UpdateUser, h, hen], ?_⟩
        intro hc
        simp [UpdateUser, h, hen] at hc
  · refine ⟨by simp [UpdateUser, h], by simp [UpdateUser, h], ?_⟩
    intro hc
    simp [UpdateUser, h] at hc

/-- C7 witness: the statement at a concrete desired record over a pool holding a
stale record for alice, with all backend calls succeeding. -/
theorem C7_witness :
    ((UpdateUser (some ⟨"alice", "new@x.com", true⟩) none none none).snd.head? =
        some (CognitoCall.updateAttrs "alice" [⟨some "email", some "new@x.com"⟩])) ∧
      ((none : Option SdkErr).isSome = true →
        (UpdateUser (some ⟨"alice", "new@x.com", true⟩) none none none).fst.isSome = true ∧
          (UpdateUser (some ⟨"alice", "new@x.com", true⟩) none none none).snd =
            [CognitoCall.updateAttrs "alice" [⟨some "email", some "new@x.com"⟩]]) ∧
      ((UpdateUser (some ⟨"alice", "new@x.com", true⟩) none none none).fst = none →
        (UpdateUser (some ⟨"alice", "new@x.com", true⟩) none none none).snd =
          [CognitoCall.updateAttrs "alice" [⟨some "email", some "new@x.com"⟩],
            if (⟨"alice", "new@x.com", true⟩ : User).enabled then
              CognitoCall.enableUser "alice"
            else CognitoCall.disableUser "alice"] ∧
          applyCalls samplePool
            (UpdateUser (some ⟨"alice", "new@x.com", true⟩) none none none).snd
            "alice" = some ⟨"new@x.com", true⟩) :=
  C7_updateUser_one_logical_operation ⟨"alice", "new@x.com", true⟩ none none none
    samplePool ⟨"old@x.com", false⟩ (by decide) rfl

end KcpUsers
